import Mathlib

/-!
# Verification of the Firebase analytics dashboard core
  (src/firebase_realtime_dashboard.py)

This file gives a shallow embedding of the data-handling core of the
dashboard script: the flattening of keyed document snapshots into flat
records, the three case-variant source queries, the sampling estimator for
ad metrics, and the two latest-N strategies (the indexed query on
`Install_time` and the scan-sort-slice over `CONVERSIONS`).

External reads are made explicit: each function takes the raw value it
would have read from the database as an `Option Val` argument, `none`
standing for a failed read (the Python code wraps every body in
`try/except` and returns the "no data" default on any exception).
-/

namespace FirebaseDashboard

/-- A dynamically typed document value, as the Python code receives it from
the JSON-decoding database client: `null`, booleans, numbers, strings, and
keyed mappings.  Mappings keep insertion order, as Python dicts do, so they
are embedded as association lists.  (Numbers are embedded as rationals;
the script only adds, divides and compares them, and no claim depends on
IEEE-754 rounding.) -/
inductive Val : Type where
  | vNull : Val
  | vBool : Bool → Val
  | vNum : ℚ → Val
  | vStr : String → Val
  | vObj : List (String × Val) → Val

/-- A flat record, as produced by flattening: a Python dict from field name
to value. -/
abbrev Record := List (String × Val)

/-- Holds (`true`) exactly on mapping-valued documents (`isinstance(x, dict)`). -/
def isObjB : Val → Bool
  | Val.vObj _ => true
  | _ => false

/-- Lookup of a field in a dict, first occurrence (Python dicts have unique
keys, so first = only). `d[f]` / `f in d`. -/
def getVal (r : Record) (f : String) : Option Val :=
  (r.find? fun p => p.1 == f).map Prod.snd

/-- The value of the LAST occurrence of a field in a raw pair list; this is
what a Python dict literal built from the list would hold at that key. -/
def lastVal (r : Record) (f : String) : Option Val :=
  (r.reverse.find? fun p => p.1 == f).map Prod.snd

/-- Python `d.get(f, default)`. -/
def pyGet (r : Record) (f : String) (d : Val) : Val :=
  (getVal r f).getD d

/-- Assigning one key of a dict: if the key is present its value is
replaced in place (the key keeps its position), otherwise the pair is
appended.  This is Python's `d[k] = v`. -/
def setKey (r : Record) (k : String) (v : Val) : Record :=
  if r.any fun p => p.1 == k then
    r.map fun p => if p.1 == k then (k, v) else p
  else
    r ++ [(k, v)]

/-- Python `base.update(upd)` for dicts given as pair lists: assign the
pairs of `upd` left to right into `base`. -/
def updateDict (base upd : Record) : Record :=
  upd.foldl (fun acc kv => setKey acc kv.1 kv.2) base

/-- A Python dict literal `{k1: v1, ..., **rest}` built from the listed
pairs in order: first occurrence fixes the position of a key, last
occurrence fixes its value. -/
def dictLit (pairs : List (String × Val)) : Record :=
  updateDict [] pairs

/-! ## Numeric coercion (`float(x)` / `int(x)`) -/

/-- The numeric value of a decimal digit, `none` on any other character. -/
def digitVal? (c : Char) : Option Nat :=
  if c.isDigit then some (c.toNat - 48) else none

/-- The natural number denoted by a nonempty all-digit character list;
`none` if the list is empty or holds a non-digit. -/
def natOfDigits? (cs : List Char) : Option Nat :=
  if cs.isEmpty then none
  else cs.foldlM (fun acc c => (digitVal? c).map fun d => acc * 10 + d) 0

/-- The natural number denoted by an all-digit list, an empty list
denoting 0 (used for the integer or fractional part of `"1."` / `".5"`). -/
def natOfDigitsD (cs : List Char) : Nat :=
  cs.foldl (fun acc c => acc * 10 + ((digitVal? c).getD 0)) 0

/-- Split a leading sign off a character list, returning the sign as ±1. -/
def splitSign : List Char → ℚ × List Char
  | '-' :: r => (-1, r)
  | '+' :: r => (1, r)
  | r => (1, r)

/-- Split a character list at its first dot: the part before it and, when
a dot is present at all, the part after it. -/
def splitDot : List Char → List Char × Option (List Char)
  | [] => ([], none)
  | c :: rest =>
      if c = '.' then ([], some rest)
      else
        let p := splitDot rest
        (c :: p.1, p.2)

/-- Modelled from Python `float(s)` on the literal forms this repository
stores: an optional sign, then digits with at most one decimal point (at
least one digit overall).  Exponents, `inf`/`nan`, underscores and
surrounding whitespace are not modelled; none of them occur in the data
the claims are about, and any unmodelled form simply fails to parse here
as the exotic malformed strings do there. -/
def floatOfString? (s : String) : Option ℚ :=
  let sb := splitSign s.data
  match splitDot sb.2 with
  | (ip, none) => (natOfDigits? ip).map fun n => sb.1 * n
  | (ip, some fp) =>
      if fp.any (fun c => c == '.') then none
      else if ip.isEmpty && fp.isEmpty then none
      else if ip.all Char.isDigit && fp.all Char.isDigit then
        some (sb.1 * ((natOfDigitsD ip : ℚ) +
          (natOfDigitsD fp : ℚ) / (10 ^ fp.length : ℚ)))
      else none

/-- Modelled from Python `int(s)` for strings: an optional sign then
decimal digits only (`int("3.5")` raises). -/
def intOfString? (s : String) : Option ℤ :=
  let sb := splitSign s.data
  (natOfDigits? sb.2).map fun n => if sb.1 < 0 then -(n : ℤ) else (n : ℤ)

/-- Truncation toward zero, Python `int()` applied to a number. -/
def ratTrunc (q : ℚ) : ℤ :=
  if 0 ≤ q then ⌊q⌋ else ⌈q⌉

/-- Python `float(x)` on a document value: numbers pass through, booleans
coerce to 0/1, strings are parsed, everything else raises
(`TypeError`/`ValueError`), embedded as `none`. -/
def pyFloat? : Val → Option ℚ
  | Val.vNum q => some q
  | Val.vBool b => some (if b then 1 else 0)
  | Val.vStr s => floatOfString? s
  | _ => none

/-- Python `int(x)` on a document value: numbers truncate toward zero,
booleans coerce to 0/1, strings parse as integers, everything else raises,
embedded as `none`. -/
def pyInt? : Val → Option ℤ
  | Val.vNum q => some (ratTrunc q)
  | Val.vBool b => some (if b then 1 else 0)
  | Val.vStr s => intOfString? s
  | _ => none

/-! ## `get_player_count` -/

/-- Function `get_player_count` (lines 74-84): a shallow read of `PLAYERS` yields one
key per player; a dict result gives its length, anything else (failed read,
`None`, a scalar, the falsy empty dict) gives 0.  The argument is the raw
`PLAYERS` node, `none` for a failed or empty read. -/
def get_player_count (players : Option Val) : Nat :=
  match players with
  | some (Val.vObj kvs) => if kvs.isEmpty then 0 else kvs.length
  | _ => 0

/-! ## `get_players_by_source` -/

/-- Python `source_name.lower()`: basic-latin lowercasing, which covers
the ASCII source names this dashboard queries. -/
def strLower (s : String) : String := String.mk (s.data.map Char.toLower)

/-- Python `source_name.upper()`: basic-latin uppercasing. -/
def strUpper (s : String) : String := String.mk (s.data.map Char.toUpper)

/-- Whether a document's `Source` child equals the string `s`:
the server-side `order_by_child("Source").equal_to(s)` test for one entry.
A document that is not a mapping, lacks the field, or holds a non-string
there has a child differing from the string `s`, so it never matches. -/
def sourceMatches (d : Val) (s : String) : Bool :=
  match d with
  | Val.vObj fields =>
      match getVal fields "Source" with
      | some (Val.vStr t) => t == s
      | _ => false
  | _ => false

/-- The result of `ref.order_by_child("Source").equal_to(s).get()` over a
snapshot: the entries whose `Source` child equals `s`. -/
def equalToSource (kvs : List (String × Val)) (s : String) : List (String × Val) :=
  kvs.filter fun kv => sourceMatches kv.2 s

/-- Lines 106-114: the exact-case, lowercase and uppercase query results
merged into one dict by successive `result.update(...)` calls. -/
def mergedSourceQueries (kvs : List (String × Val)) (s : String) :
    List (String × Val) :=
  updateDict
    (updateDict
      (updateDict [] (equalToSource kvs s))
      (equalToSource kvs (strLower s)))
    (equalToSource kvs (strUpper s))

/-- Function `get_players_by_source` (lines 87-119): the size of the merged dict of
the three case-variant `equal_to` queries; 0 on a failed read or a
non-mapping `PLAYERS` node (no entry has a `Source` child then). -/
def get_players_by_source (players : Option Val) (source_name : String) : Nat :=
  match players with
  | some (Val.vObj kvs) => (mergedSourceQueries kvs source_name).length
  | _ => 0

/-! ## `get_ad_metrics` -/

/-- Lines 138-147: the running sum of `float(player_data.get("Ad_Revenue", 0))`
over the sample's values, skipping non-dict entries, the `except` clause
turning a failed coercion into adding nothing. -/
def totalAdRevenue (kvs : List (String × Val)) : ℚ :=
  kvs.foldl
    (fun acc kv =>
      match kv.2 with
      | Val.vObj d => acc + ((pyFloat? (pyGet d "Ad_Revenue" (Val.vNum 0))).getD 0)
      | _ => acc)
    0

/-- Lines 149-154: the running sum of `int(player_data.get("Impressions", 0))`
over the sample's values, skipping non-dict entries and failed coercions. -/
def totalImpressions (kvs : List (String × Val)) : ℤ :=
  kvs.foldl
    (fun acc kv =>
      match kv.2 with
      | Val.vObj d => acc + ((pyInt? (pyGet d "Impressions" (Val.vNum 0))).getD 0)
      | _ => acc)
    0

/-- Function `get_ad_metrics` (lines 122-175), with the two external reads made
explicit: `sample` is the result of the latest-100 query on `PLAYERS` and
`player_count` the result of the `get_player_count()` call inside it.
A falsy or non-dict sample returns `(0, 0)`; so does a zero player count;
otherwise each total is divided by the sample size (all entries, dict or
not) and scaled by the player count. -/
def get_ad_metrics (sample : Option Val) (player_count : Nat) : ℚ × ℚ :=
  match sample with
  | some (Val.vObj kvs) =>
      if kvs.isEmpty then (0, 0)
      else if player_count = 0 ∨ kvs.length = 0 then (0, 0)
      else
        (totalAdRevenue kvs / (kvs.length : ℚ) * (player_count : ℚ),
         (totalImpressions kvs : ℚ) / (kvs.length : ℚ) * (player_count : ℚ))
  | _ => (0, 0)

/-! ## Flattening -/

/-- Line 187: the record `{"uid": uid, **record}` built for one player
entry — a dict literal, so a `"uid"` field of the document lands on the
injected key's position but with the document's value. -/
def mkPlayerRecord (uid : String) (doc : Record) : Record :=
  dictLit (("uid", Val.vStr uid) :: doc)

/-- Lines 227-231: the record `{"user_id": ..., "conversion_id": ..., **conv_data}`
built for one conversion entry. -/
def mkConvRecord (user_id conv_id : String) (doc : Record) : Record :=
  dictLit (("user_id", Val.vStr user_id) :: ("conversion_id", Val.vStr conv_id) :: doc)

/-- Line 187: the list comprehension over `data.items()` keeping only
mapping-valued documents and flattening each with its key. -/
def flattenPlayers (kvs : List (String × Val)) : List Record :=
  kvs.filterMap fun kv =>
    match kv.2 with
    | Val.vObj doc => some (mkPlayerRecord kv.1 doc)
    | _ => none

/-- Lines 208-232: the nested loop over `CONVERSIONS` users and their
conversion ids, appending one record per mapping-valued conversion
document; non-mapping users and conversions are skipped by the `continue`
guards. -/
def flattenConversions (users : List (String × Val)) : List Record :=
  users.flatMap fun ukv =>
    match ukv.2 with
    | Val.vObj convs =>
        convs.filterMap fun ckv =>
          match ckv.2 with
          | Val.vObj doc => some (mkConvRecord ukv.1 ckv.1 doc)
          | _ => none
    | _ => []

/-! ## Sort keys and sorting -/

/-- The sort key the server uses for `order_by_child("Install_time")` on a
raw entry, and that the spec assigns to the Latest-N Selector: the numeric
`Install_time` child, absent (or non-numeric) values sorting as 0
(oldest). -/
def installKey (d : Val) : ℚ :=
  match d with
  | Val.vObj fields =>
      match getVal fields "Install_time" with
      | some (Val.vNum q) => q
      | _ => 0
  | _ => 0

/-- The `Install_time` value of a flattened record, 0 when absent or not a
number — the sort-key reading under which the returned sequences are
compared. -/
def recInstallKey (r : Record) : ℚ :=
  match getVal r "Install_time" with
  | some (Val.vNum q) => q
  | _ => 0

/-- Line 237: the sort key `x.get("time", 0)` of a flattened conversion
record, for records whose `time` field is numeric or absent.  (A present
non-numeric `time` would make CPython's `sorted` raise `TypeError` when
compared against a number, which the enclosing handler turns into `[]`;
the ordering theorems below therefore carry a numeric-or-absent
hypothesis, and this key maps such values to 0 only to stay total.) -/
def timeKey (r : Record) : ℚ :=
  match getVal r "time" with
  | some (Val.vNum q) => q
  | _ => 0

/-- Whether a record's `time` field is numeric or absent — the domain on
which `timeKey` agrees with Python's comparisons. -/
def timeNumOk (r : Record) : Bool :=
  match getVal r "time" with
  | some (Val.vNum _) => true
  | none => true
  | _ => false

/-- Modelled from the spec: the Store Reader's
`get_ordered_tail(path, sort_field, limit)` backing the indexed strategy
(`ref.order_by_child("Install_time").limit_to_last(limit)`, lines 182-183,
served by the external database): the last `limit` entries of the snapshot
under the ascending stable order on the `Install_time` child, delivered in
that ascending order, absent sort-key values sorting as 0 (oldest). -/
def orderedTail (kvs : List (String × Val)) (limit : Nat) : List (String × Val) :=
  let sorted := List.insertionSort (fun a b => installKey a.2 ≤ installKey b.2) kvs
  sorted.drop (sorted.length - limit)

/-- Function `fetch_latest_players` (lines 178-192): the indexed query's result
flattened in the order the client delivers it (ascending by
`Install_time`).  A negative limit makes `limit_to_last` raise
`ValueError`, caught into `[]`; a failed read or non-mapping result also
yields `[]`. -/
def fetch_latest_players (players : Option Val) (limit : ℤ) : List Record :=
  if limit < 0 then []
  else
    match players with
    | some (Val.vObj kvs) => flattenPlayers (orderedTail kvs limit.toNat)
    | _ => []

/-- Lines 235-239: `sorted(all_conversions, key=lambda x: x.get("time", 0),
reverse=True)` — a stable sort descending by `timeKey` (insertion sort is
the canonical stable sort; CPython's `sorted` is stable and `reverse=True`
keeps equal elements in original order). -/
def sortDescByTime (l : List Record) : List Record :=
  List.insertionSort (fun a b => timeKey b ≤ timeKey a) l

/-- Python's slice `l[:limit]`: the first `limit` elements for a
non-negative limit, everything but the last `-limit` elements for a
negative one. -/
def pySlice {α : Type} (l : List α) (limit : ℤ) : List α :=
  if 0 ≤ limit then l.take limit.toNat
  else l.take (l.length - (-limit).toNat)

/-- Function `fetch_latest_conversions_efficiently` (lines 195-245): flatten the
whole `CONVERSIONS` snapshot (taken here as one explicit argument — the
code reads it piecewise by shallow queries over the same tree), sort
descending by `time`, and slice to the first `limit`.  A failed read or
non-mapping (or falsy empty) top level yields `[]`. -/
def fetch_latest_conversions_efficiently (convs : Option Val) (limit : ℤ) :
    List Record :=
  match convs with
  | some (Val.vObj users) => pySlice (sortDescByTime (flattenConversions users)) limit
  | _ => []

/-- Holds (`true`) unless the read produced a usable mapping: a failed read
(`none`) or any non-mapping node — the "no data" inputs of claim C8. -/
def isNoDataB : Option Val → Bool
  | some (Val.vObj _) => false
  | _ => true

/-! ## Derived notions used by the theorems -/

/-- The keys of a dict, in order. -/
def keysOf (r : Record) : List String := r.map Prod.fst

/-- Whether an entry is matched by at least one of the three case-variant
queries of `get_players_by_source`. -/
def matchesAnyCase (kv : String × Val) (s : String) : Bool :=
  sourceMatches kv.2 s || sourceMatches kv.2 (strLower s) || sourceMatches kv.2 (strUpper s)

/-- Contribution of one sample entry to the ad-revenue running sum: the
coerced `Ad_Revenue` value, with a non-mapping entry or a failed coercion
contributing 0. -/
def revContrib (kv : String × Val) : ℚ :=
  match kv.2 with
  | Val.vObj d => (pyFloat? (pyGet d "Ad_Revenue" (Val.vNum 0))).getD 0
  | _ => 0

/-- Contribution of one sample entry to the impressions running sum. -/
def impContrib (kv : String × Val) : ℤ :=
  match kv.2 with
  | Val.vObj d => (pyInt? (pyGet d "Impressions" (Val.vNum 0))).getD 0
  | _ => 0

/-- The coerced `Ad_Revenue` value of a sample entry, `none` when the entry
is not a mapping or the value fails `float()`. -/
def revCoerce? (kv : String × Val) : Option ℚ :=
  match kv.2 with
  | Val.vObj d => pyFloat? (pyGet d "Ad_Revenue" (Val.vNum 0))
  | _ => none

/-- The coerced `Impressions` value of a sample entry, `none` when the
entry is not a mapping or the value fails `int()`. -/
def impCoerce? (kv : String × Val) : Option ℤ :=
  match kv.2 with
  | Val.vObj d => pyInt? (pyGet d "Impressions" (Val.vNum 0))
  | _ => none

/-- Whether every mapping-valued document has pairwise distinct field
names, as JSON documents decoded from the store always do. -/
def docKeysNodupB (v : Val) : Bool :=
  match v with
  | Val.vObj fields => decide ((keysOf fields).Nodup)
  | _ => true

/-! ## Dictionary lemmas -/

theorem getVal_nil (f : String) : getVal [] f = none := rfl

theorem lastVal_nil (f : String) : lastVal [] f = none := rfl

theorem getVal_cons (k : String) (v : Val) (r : Record) (f : String) :
    getVal ((k, v) :: r) f = if f = k then some v else getVal r f := by
  by_cases h : f = k
  · subst h; simp [getVal, List.find?_cons]
  · simp [getVal, List.find?_cons, beq_iff_eq, Ne.symm h, h]

/-- Mapping the projection to the value across an `Option.or` of pairs. -/
theorem map_snd_or (a b : Option (String × Val)) :
    (a.or b).map Prod.snd = (a.map Prod.snd).or (b.map Prod.snd) := by
  cases a <;> simp

theorem lastVal_cons (k : String) (v : Val) (r : Record) (f : String) :
    lastVal ((k, v) :: r) f =
      (lastVal r f).or (if f = k then some v else none) := by
  by_cases h : f = k
  · subst h
    simp [lastVal, List.find?_append, map_snd_or, List.find?_cons]
  · simp [lastVal, List.find?_append, beq_iff_eq, Ne.symm h, h, map_snd_or,
      List.find?_cons]

theorem getVal_append (r l : Record) (f : String) :
    getVal (r ++ l) f = (getVal r f).or (getVal l f) := by
  simp [getVal, List.find?_append, map_snd_or]

/-- Replacing the value at the key `k` leaves lookups of other fields
unchanged. -/
theorem getVal_mapReplace_ne (r : Record) (k : String) (v : Val) (f : String)
    (h : f ≠ k) :
    getVal (r.map fun p => if p.1 == k then (k, v) else p) f = getVal r f := by
  induction r with
  | nil => rfl
  | cons p r ih =>
    obtain ⟨k0, v0⟩ := p
    by_cases hk0 : k0 = k
    · subst hk0
      simp only [List.map_cons, beq_self_eq_true, if_true]
      rw [getVal_cons, getVal_cons, ih]
      simp [h]
    · have hb : (k0 == k) = false := beq_eq_false_iff_ne.mpr hk0
      simp only [List.map_cons, hb, Bool.false_eq_true, if_false]
      rw [getVal_cons, getVal_cons, ih]

/-- Replacing the value at a present key `k` makes lookups of `k` return
the new value. -/
theorem getVal_mapReplace_self (r : Record) (k : String) (v : Val)
    (h : r.any (fun p => p.1 == k) = true) :
    getVal (r.map fun p => if p.1 == k then (k, v) else p) k = some v := by
  induction r with
  | nil => simp at h
  | cons p r ih =>
    obtain ⟨k0, v0⟩ := p
    by_cases hk0 : k0 = k
    · subst hk0
      simp only [List.map_cons, beq_self_eq_true, if_true]
      rw [getVal_cons]
      simp
    · have hb : (k0 == k) = false := beq_eq_false_iff_ne.mpr hk0
      simp only [List.map_cons, hb, Bool.false_eq_true, if_false]
      rw [getVal_cons]
      have h2 : r.any (fun p => p.1 == k) = true := by
        simp only [List.any_cons, hb, Bool.false_or] at h
        exact h
      simp only [Ne.symm hk0, if_false]
      exact ih h2

/-- If no pair of `r` carries the key `f`, looking `f` up yields nothing. -/
theorem getVal_eq_none_of_not_any (r : Record) (f : String)
    (h : r.any (fun p => p.1 == f) = false) : getVal r f = none := by
  have hfind : (r.find? fun p => p.1 == f) = none := by
    rw [List.find?_eq_none]
    intro p hp
    have := List.any_eq_false.mp h p hp
    simpa using this
  simp [getVal, hfind]

/-- Python assignment `r[k] = v` seen through lookups: the assigned key now
maps to `v`, every other key is untouched. -/
theorem getVal_setKey (r : Record) (k : String) (v : Val) (f : String) :
    getVal (setKey r k v) f = if f = k then some v else getVal r f := by
  unfold setKey
  cases hmem : r.any (fun p => p.1 == k) with
  | true =>
    simp only [hmem, if_true]
    by_cases h : f = k
    · subst h
      rw [getVal_mapReplace_self r f v hmem]
      simp
    · rw [getVal_mapReplace_ne r k v f h]
      simp [h]
  | false =>
    simp only [hmem, Bool.false_eq_true, if_false]
    rw [getVal_append]
    by_cases h : f = k
    · subst h
      have hnone : getVal r f = none := getVal_eq_none_of_not_any r f hmem
      rw [hnone, getVal_cons]
      simp
    · have h2 : getVal [(k, v)] f = none := by
        rw [getVal_cons]
        simp [h, getVal_nil]
      simp [h2, h]

/-- Lookup after a Python `base.update(upd)`: the last value of the key in
`upd` if the key occurs there, otherwise the value in `base`. -/
theorem getVal_updateDict (base upd : Record) (f : String) :
    getVal (updateDict base upd) f = (lastVal upd f).or (getVal base f) := by
  induction upd generalizing base with
  | nil => simp [updateDict, lastVal_nil]
  | cons p rest ih =>
    obtain ⟨k, v⟩ := p
    show getVal (updateDict (setKey base k v) rest) f = _
    rw [ih, lastVal_cons, getVal_setKey]
    by_cases h : f = k
    · subst h
      simp only [if_pos rfl]
      cases lastVal rest f <;> simp
    · simp only [h, if_false]
      cases lastVal rest f <;> simp

/-- A Python dict literal holds, at each key, the value of the key's last
occurrence in the written pairs. -/
theorem getVal_dictLit (pairs : List (String × Val)) (f : String) :
    getVal (dictLit pairs) f = lastVal pairs f := by
  unfold dictLit
  rw [getVal_updateDict]
  simp [getVal_nil]

/-! ## Key-set lemmas -/


theorem any_key_iff (r : Record) (f : String) :
    (r.any fun p => p.1 == f) = true ↔ f ∈ keysOf r := by
  simp [List.any_eq_true, keysOf, List.mem_map, beq_iff_eq]

theorem getVal_eq_none_of_not_mem (r : Record) (f : String)
    (h : f ∉ keysOf r) : getVal r f = none := by
  apply getVal_eq_none_of_not_any
  cases hany : r.any (fun p => p.1 == f) with
  | false => rfl
  | true => exact absurd ((any_key_iff r f).mp hany) h

theorem lastVal_eq_none_of_not_mem (r : Record) (f : String)
    (h : f ∉ keysOf r) : lastVal r f = none := by
  have hfind : (r.reverse.find? fun p => p.1 == f) = none := by
    rw [List.find?_eq_none]
    intro p hp
    rw [List.mem_reverse] at hp
    simp only [beq_iff_eq]
    intro hk
    exact h (List.mem_map.mpr ⟨p, hp, hk⟩)
  simp [lastVal, hfind]

/-- In a dict with no duplicate keys, the last occurrence of a key is its
only occurrence. -/
theorem lastVal_eq_getVal_of_nodup (r : Record) (f : String)
    (h : (keysOf r).Nodup) : lastVal r f = getVal r f := by
  induction r with
  | nil => rfl
  | cons p rest ih =>
    obtain ⟨k0, v0⟩ := p
    have hrest : (keysOf rest).Nodup := (List.nodup_cons.mp h).2
    have hk0 : k0 ∉ keysOf rest := (List.nodup_cons.mp h).1
    rw [lastVal_cons, getVal_cons, ih hrest]
    by_cases hf : f = k0
    · subst hf
      rw [getVal_eq_none_of_not_mem rest f hk0]
      simp
    · simp [hf]

theorem keysOf_mapReplace (r : Record) (k : String) (v : Val) :
    keysOf (r.map fun p => if p.1 == k then (k, v) else p) = keysOf r := by
  unfold keysOf
  rw [List.map_map]
  apply List.map_congr_left
  intro p _
  by_cases hp : p.1 = k <;> simp [hp]

theorem mem_keysOf_setKey (r : Record) (k : String) (v : Val) (a : String) :
    a ∈ keysOf (setKey r k v) ↔ a ∈ keysOf r ∨ a = k := by
  unfold setKey
  cases hmem : r.any (fun p => p.1 == k) with
  | true =>
    simp only [hmem, if_true, keysOf_mapReplace]
    have hk : k ∈ keysOf r := (any_key_iff r k).mp hmem
    constructor
    · exact Or.inl
    · rintro (h | h)
      · exact h
      · exact h ▸ hk
  | false =>
    simp only [hmem, Bool.false_eq_true, if_false]
    simp [keysOf, List.map_append]

theorem keysOf_setKey_nodup (r : Record) (k : String) (v : Val)
    (h : (keysOf r).Nodup) : (keysOf (setKey r k v)).Nodup := by
  unfold setKey
  cases hmem : r.any (fun p => p.1 == k) with
  | true =>
    simp only [hmem, if_true]
    rw [keysOf_mapReplace]
    exact h
  | false =>
    have hk : k ∉ keysOf r := by
      intro hc
      rw [← any_key_iff] at hc
      rw [hmem] at hc
      exact Bool.false_ne_true hc
    simp only [hmem, Bool.false_eq_true, if_false]
    unfold keysOf
    simp only [List.map_append]
    rw [List.nodup_append]
    refine ⟨h, by simp, ?_⟩
    intro a ha
    simp only [List.map_cons, List.map_nil, List.mem_singleton]
    intro hak
    exact hk (hak ▸ ha)

theorem mem_keysOf_updateDict (base upd : Record) (a : String) :
    a ∈ keysOf (updateDict base upd) ↔ a ∈ keysOf base ∨ a ∈ keysOf upd := by
  induction upd generalizing base with
  | nil => simp [updateDict, keysOf]
  | cons p rest ih =>
    obtain ⟨k, v⟩ := p
    show a ∈ keysOf (updateDict (setKey base k v) rest) ↔ _
    rw [ih, mem_keysOf_setKey]
    unfold keysOf
    simp only [List.map_cons, List.mem_cons]
    tauto

theorem keysOf_updateDict_nodup (base upd : Record)
    (h : (keysOf base).Nodup) : (keysOf (updateDict base upd)).Nodup := by
  induction upd generalizing base with
  | nil => exact h
  | cons p rest ih =>
    obtain ⟨k, v⟩ := p
    exact ih (setKey base k v) (keysOf_setKey_nodup base k v h)

/-! ## Merged source-query lemmas -/


theorem keysOf_mergedSourceQueries_nodup (kvs : List (String × Val)) (s : String) :
    (keysOf (mergedSourceQueries kvs s)).Nodup := by
  unfold mergedSourceQueries
  apply keysOf_updateDict_nodup
  apply keysOf_updateDict_nodup
  apply keysOf_updateDict_nodup
  simp [keysOf]

theorem mem_keysOf_equalToSource (kvs : List (String × Val)) (t : String) (a : String) :
    a ∈ keysOf (equalToSource kvs t) ↔
      ∃ kv ∈ kvs, kv.1 = a ∧ sourceMatches kv.2 t = true := by
  simp only [keysOf, equalToSource, List.mem_map, List.mem_filter]
  constructor
  · rintro ⟨kv, ⟨hkv, hm⟩, hk⟩
    exact ⟨kv, hkv, hk, hm⟩
  · rintro ⟨kv, hkv, hk, hm⟩
    exact ⟨kv, ⟨hkv, hm⟩, hk⟩

theorem mem_keysOf_mergedSourceQueries (kvs : List (String × Val)) (s a : String) :
    a ∈ keysOf (mergedSourceQueries kvs s) ↔
      ∃ kv ∈ kvs, kv.1 = a ∧ matchesAnyCase kv s = true := by
  unfold mergedSourceQueries
  rw [mem_keysOf_updateDict, mem_keysOf_updateDict, mem_keysOf_updateDict,
    mem_keysOf_equalToSource, mem_keysOf_equalToSource, mem_keysOf_equalToSource]
  rw [show keysOf [] = [] from rfl]
  simp only [List.not_mem_nil, false_or]
  unfold matchesAnyCase
  constructor
  · rintro ((⟨kv, hkv, hk, hm⟩ | ⟨kv, hkv, hk, hm⟩) | ⟨kv, hkv, hk, hm⟩)
    · exact ⟨kv, hkv, hk, by simp [hm]⟩
    · exact ⟨kv, hkv, hk, by simp [hm]⟩
    · exact ⟨kv, hkv, hk, by simp [hm]⟩
  · rintro ⟨kv, hkv, hk, hm⟩
    simp only [Bool.or_eq_true] at hm
    rcases hm with (hm | hm) | hm
    · exact Or.inl (Or.inl ⟨kv, hkv, hk, hm⟩)
    · exact Or.inl (Or.inr ⟨kv, hkv, hk, hm⟩)
    · exact Or.inr ⟨kv, hkv, hk, hm⟩

/-- With unique keys in the snapshot, the merged dict of the three queries
has exactly one entry per snapshot entry matched by at least one variant. -/
theorem length_mergedSourceQueries (kvs : List (String × Val)) (s : String)
    (hk : (keysOf kvs).Nodup) :
    (mergedSourceQueries kvs s).length =
      (kvs.filter fun kv => matchesAnyCase kv s).length := by
  have hM : (keysOf (mergedSourceQueries kvs s)).Nodup :=
    keysOf_mergedSourceQueries_nodup kvs s
  have hFsub : List.Sublist (keysOf (kvs.filter fun kv => matchesAnyCase kv s)) (keysOf kvs) :=
    (List.filter_sublist kvs).map Prod.fst
  have hF : (keysOf (kvs.filter fun kv => matchesAnyCase kv s)).Nodup :=
    hk.sublist hFsub
  have hmem : ∀ a, a ∈ keysOf (mergedSourceQueries kvs s) ↔
      a ∈ keysOf (kvs.filter fun kv => matchesAnyCase kv s) := by
    intro a
    rw [mem_keysOf_mergedSourceQueries]
    simp only [keysOf, List.mem_map, List.mem_filter]
    constructor
    · rintro ⟨kv, hkv, hkey, hm⟩
      exact ⟨kv, ⟨hkv, hm⟩, hkey⟩
    · rintro ⟨kv, ⟨hkv, hm⟩, hkey⟩
      exact ⟨kv, hkv, hkey, hm⟩
  have hlen : (keysOf (mergedSourceQueries kvs s)).length =
      (keysOf (kvs.filter fun kv => matchesAnyCase kv s)).length := by
    rw [← List.toFinset_card_of_nodup hM, ← List.toFinset_card_of_nodup hF]
    congr 1
    apply Finset.ext
    intro a
    simp only [List.mem_toFinset]
    exact hmem a
  calc (mergedSourceQueries kvs s).length
      = (keysOf (mergedSourceQueries kvs s)).length := (List.length_map _ _).symm
    _ = (keysOf (kvs.filter fun kv => matchesAnyCase kv s)).length := hlen
    _ = (kvs.filter fun kv => matchesAnyCase kv s).length := List.length_map _ _

/-! ## Sum lemmas for the estimator -/


theorem totalAdRevenue_foldl_aux :
    ∀ (kvs : List (String × Val)) (c : ℚ),
      List.foldl
        (fun acc kv =>
          match kv.2 with
          | Val.vObj d => acc + ((pyFloat? (pyGet d "Ad_Revenue" (Val.vNum 0))).getD 0)
          | _ => acc)
        c kvs = c + (kvs.map revContrib).sum := by
  intro kvs
  induction kvs with
  | nil => intro c; simp
  | cons kv t ih =>
    intro c
    rw [List.foldl_cons, List.map_cons, List.sum_cons, ih]
    obtain ⟨k, v⟩ := kv
    cases v <;> simp [revContrib] <;> ring

theorem totalAdRevenue_eq_sum (kvs : List (String × Val)) :
    totalAdRevenue kvs = (kvs.map revContrib).sum := by
  unfold totalAdRevenue
  rw [totalAdRevenue_foldl_aux]
  simp

theorem totalImpressions_foldl_aux :
    ∀ (kvs : List (String × Val)) (c : ℤ),
      List.foldl
        (fun acc kv =>
          match kv.2 with
          | Val.vObj d => acc + ((pyInt? (pyGet d "Impressions" (Val.vNum 0))).getD 0)
          | _ => acc)
        c kvs = c + (kvs.map impContrib).sum := by
  intro kvs
  induction kvs with
  | nil => intro c; simp
  | cons kv t ih =>
    intro c
    rw [List.foldl_cons, List.map_cons, List.sum_cons, ih]
    obtain ⟨k, v⟩ := kv
    cases v <;> simp [impContrib] <;> ring

theorem totalImpressions_eq_sum (kvs : List (String × Val)) :
    totalImpressions kvs = (kvs.map impContrib).sum := by
  unfold totalImpressions
  rw [totalImpressions_foldl_aux]
  simp

theorem revContrib_eq_getD (kv : String × Val) :
    revContrib kv = (revCoerce? kv).getD 0 := by
  obtain ⟨k, v⟩ := kv
  cases v <;> simp [revContrib, revCoerce?]

theorem impContrib_eq_getD (kv : String × Val) :
    impContrib kv = (impCoerce? kv).getD 0 := by
  obtain ⟨k, v⟩ := kv
  cases v <;> simp [impContrib, impCoerce?]

theorem sum_map_getD_eq_sum_filterMap {α : Type} (g : α → Option ℚ) :
    ∀ l : List α, (l.map fun x => (g x).getD 0).sum = (l.filterMap g).sum := by
  intro l
  induction l with
  | nil => rfl
  | cons x t ih =>
    rw [List.map_cons, List.sum_cons, ih]
    cases hg : g x with
    | none => simp [List.filterMap_cons, hg]
    | some q => simp [List.filterMap_cons, hg]

theorem sum_map_getD_eq_sum_filterMap_int {α : Type} (g : α → Option ℤ) :
    ∀ l : List α, (l.map fun x => (g x).getD 0).sum = (l.filterMap g).sum := by
  intro l
  induction l with
  | nil => rfl
  | cons x t ih =>
    rw [List.map_cons, List.sum_cons, ih]
    cases hg : g x with
    | none => simp [List.filterMap_cons, hg]
    | some q => simp [List.filterMap_cons, hg]

/-! ## Flattening lemmas -/

theorem flattenPlayers_length (kvs : List (String × Val)) :
    (flattenPlayers kvs).length = (kvs.filter fun kv => isObjB kv.2).length := by
  induction kvs with
  | nil => rfl
  | cons kv t ih =>
    obtain ⟨k, v⟩ := kv
    cases v <;>
      simp [flattenPlayers, List.filterMap_cons, List.filter_cons, isObjB] <;>
      simpa [flattenPlayers] using ih

theorem convFilterMap_length (u : String) (convs : List (String × Val)) :
    (convs.filterMap fun ckv =>
        match ckv.2 with
        | Val.vObj doc => some (mkConvRecord u ckv.1 doc)
        | _ => none).length =
      (convs.filter fun ckv => isObjB ckv.2).length := by
  induction convs with
  | nil => rfl
  | cons ckv t ih =>
    obtain ⟨k, v⟩ := ckv
    cases v <;>
      simp [List.filterMap_cons, List.filter_cons, isObjB] <;>
      simpa using ih

theorem flattenConversions_cons (u : String) (v : Val) (t : List (String × Val)) :
    flattenConversions ((u, v) :: t) =
      (match v with
        | Val.vObj convs =>
            convs.filterMap fun ckv =>
              match ckv.2 with
              | Val.vObj doc => some (mkConvRecord u ckv.1 doc)
              | _ => none
        | _ => []) ++ flattenConversions t := by
  simp [flattenConversions, List.flatMap_cons]

theorem flattenConversions_length (users : List (String × Val)) :
    (flattenConversions users).length =
      (users.map fun ukv =>
        match ukv.2 with
        | Val.vObj convs => (convs.filter fun ckv => isObjB ckv.2).length
        | _ => 0).sum := by
  induction users with
  | nil => rfl
  | cons ukv t ih =>
    obtain ⟨u, v⟩ := ukv
    rw [flattenConversions_cons, List.length_append, List.map_cons, List.sum_cons, ih]
    cases v <;> simp [convFilterMap_length]

/-! ## Sorting lemmas -/

theorem pairwise_desc_insertionSort {α : Type} (k : α → ℚ) (l : List α) :
    List.Pairwise (fun a b => k b ≤ k a)
      (List.insertionSort (fun a b => k b ≤ k a) l) := by
  haveI : IsTotal α fun a b => k b ≤ k a := ⟨fun a b => le_total (k b) (k a)⟩
  haveI : IsTrans α fun a b => k b ≤ k a := ⟨fun a b c hab hbc => le_trans hbc hab⟩
  exact List.sorted_insertionSort _ l

theorem pairwise_asc_insertionSort {α : Type} (k : α → ℚ) (l : List α) :
    List.Pairwise (fun a b => k a ≤ k b)
      (List.insertionSort (fun a b => k a ≤ k b) l) := by
  haveI : IsTotal α fun a b => k a ≤ k b := ⟨fun a b => le_total (k a) (k b)⟩
  haveI : IsTrans α fun a b => k a ≤ k b := ⟨fun a b c hab hbc => le_trans hab hbc⟩
  exact List.sorted_insertionSort _ l

theorem filter_orderedInsert_desc {α : Type} (k : α → ℚ) (q : ℚ) (x : α) :
    ∀ l : List α,
      (List.orderedInsert (fun a b => k b ≤ k a) x l).filter (fun y => k y == q) =
        if k x = q then x :: l.filter (fun y => k y == q)
        else l.filter (fun y => k y == q) := by
  intro l
  induction l with
  | nil =>
    by_cases h : k x = q <;> simp [List.orderedInsert, List.filter_cons, h]
  | cons y ys ih =>
    by_cases hr : k y ≤ k x
    · rw [show List.orderedInsert (fun a b => k b ≤ k a) x (y :: ys) = x :: y :: ys by
        simp [List.orderedInsert, hr]]
      by_cases hx : k x = q <;> simp [List.filter_cons, hx]
    · rw [show List.orderedInsert (fun a b => k b ≤ k a) x (y :: ys) =
          y :: List.orderedInsert (fun a b => k b ≤ k a) x ys by
        simp [List.orderedInsert, hr]]
      have hlt : k x < k y := not_le.mp hr
      by_cases hx : k x = q
      · have hy : ¬ k y = q := by
          intro hyq
          rw [hx] at hlt
          rw [hyq] at hlt
          exact lt_irrefl q hlt
        simp only [List.filter_cons, ih, hx, if_true]
        simp [hy]
      · simp only [List.filter_cons, ih, hx, if_false]

theorem filter_insertionSort_desc {α : Type} (k : α → ℚ) (q : ℚ) :
    ∀ l : List α,
      (List.insertionSort (fun a b => k b ≤ k a) l).filter (fun y => k y == q) =
        l.filter (fun y => k y == q) := by
  intro l
  induction l with
  | nil => rfl
  | cons x t ih =>
    rw [List.insertionSort, filter_orderedInsert_desc, ih]
    by_cases hx : k x = q <;> simp [List.filter_cons, hx]

/-! ## Record / sort-key bridging -/

theorem getVal_mkPlayerRecord_ne (uid : String) (doc : Record) (f : String)
    (h : f ≠ "uid") : getVal (mkPlayerRecord uid doc) f = lastVal doc f := by
  unfold mkPlayerRecord
  rw [getVal_dictLit, lastVal_cons]
  simp [h]


theorem recInstallKey_mkPlayerRecord (uid : String) (doc : Record)
    (h : (keysOf doc).Nodup) :
    recInstallKey (mkPlayerRecord uid doc) = installKey (Val.vObj doc) := by
  unfold recInstallKey installKey
  rw [getVal_mkPlayerRecord_ne uid doc _ (by decide),
    lastVal_eq_getVal_of_nodup doc _ h]

/-! ## Ordered-tail lemmas -/

theorem orderedTail_length_le (kvs : List (String × Val)) (n : Nat) :
    (orderedTail kvs n).length ≤ n := by
  unfold orderedTail
  simp only [List.length_drop, List.length_insertionSort]
  omega

theorem orderedTail_pairwise (kvs : List (String × Val)) (n : Nat) :
    List.Pairwise (fun a b => installKey a.2 ≤ installKey b.2) (orderedTail kvs n) := by
  unfold orderedTail
  exact (pairwise_asc_insertionSort (fun kv => installKey kv.2) kvs).sublist
    (List.drop_sublist _ _)

theorem orderedTail_mem (kvs : List (String × Val)) (n : Nat) :
    ∀ kv ∈ orderedTail kvs n, kv ∈ kvs := by
  intro kv hkv
  unfold orderedTail at hkv
  have hs := (List.drop_sublist _ _).mem hkv
  exact (List.mem_insertionSort _).mp hs

/-! ## Latest-players lemmas -/

theorem fetch_latest_players_length (kvs : List (String × Val)) (limit : ℤ) :
    (fetch_latest_players (some (Val.vObj kvs)) limit).length ≤ limit.toNat := by
  unfold fetch_latest_players
  by_cases hl : limit < 0
  · simp [hl]
  · simp only [hl, if_false]
    calc (flattenPlayers (orderedTail kvs limit.toNat)).length
        = ((orderedTail kvs limit.toNat).filter fun kv => isObjB kv.2).length :=
          flattenPlayers_length _
      _ ≤ (orderedTail kvs limit.toNat).length := List.length_filter_le _ _
      _ ≤ limit.toNat := orderedTail_length_le _ _

theorem fetch_latest_players_pairwise (kvs : List (String × Val)) (limit : ℤ)
    (h : kvs.all (fun kv => docKeysNodupB kv.2) = true) :
    List.Pairwise (fun a b => recInstallKey a ≤ recInstallKey b)
      (fetch_latest_players (some (Val.vObj kvs)) limit) := by
  unfold fetch_latest_players
  by_cases hl : limit < 0
  · simp [hl]
  · simp only [hl, if_false]
    unfold flattenPlayers
    rw [List.pairwise_filterMap]
    apply (orderedTail_pairwise kvs limit.toNat).imp_of_mem
    intro a b ha hb hr
    intro x hx y hy
    obtain ⟨ka, va⟩ := a
    obtain ⟨kb, vb⟩ := b
    cases va with
    | vObj da =>
      cases vb with
      | vObj db =>
        simp only [Option.mem_def, Option.some_inj] at hx hy
        subst hx
        subst hy
        have hda : (keysOf da).Nodup := by
          have := List.all_eq_true.mp h _ (orderedTail_mem kvs limit.toNat _ ha)
          exact of_decide_eq_true this
        have hdb : (keysOf db).Nodup := by
          have := List.all_eq_true.mp h _ (orderedTail_mem kvs limit.toNat _ hb)
          exact of_decide_eq_true this
        rw [recInstallKey_mkPlayerRecord _ _ hda, recInstallKey_mkPlayerRecord _ _ hdb]
        exact hr
      | vNull => simp at hy
      | vBool b2 => simp at hy
      | vNum q2 => simp at hy
      | vStr s2 => simp at hy
    | vNull => simp at hx
    | vBool b1 => simp at hx
    | vNum q1 => simp at hx
    | vStr s1 => simp at hx

/-! ## Latest-conversions lemmas -/

theorem fetch_latest_conversions_pairwise (users : List (String × Val)) (limit : ℤ) :
    List.Pairwise (fun a b => timeKey b ≤ timeKey a)
      (fetch_latest_conversions_efficiently (some (Val.vObj users)) limit) := by
  show List.Pairwise _ (pySlice (sortDescByTime (flattenConversions users)) limit)
  have hsorted : List.Pairwise (fun a b => timeKey b ≤ timeKey a)
      (sortDescByTime (flattenConversions users)) :=
    pairwise_desc_insertionSort timeKey _
  unfold pySlice
  by_cases hl : 0 ≤ limit
  · simp only [hl, if_true]
    exact hsorted.sublist (List.take_sublist _ _)
  · simp only [hl, if_false]
    exact hsorted.sublist (List.take_sublist _ _)

theorem fetch_latest_conversions_length (users : List (String × Val)) (limit : ℤ)
    (h : 0 ≤ limit) :
    (fetch_latest_conversions_efficiently (some (Val.vObj users)) limit).length ≤
      limit.toNat := by
  show (pySlice (sortDescByTime (flattenConversions users)) limit).length ≤ _
  unfold pySlice
  simp only [h, if_true]
  simp [List.length_take]

theorem fetch_latest_conversions_neg_length (users : List (String × Val)) (limit : ℤ)
    (h : limit < 0) :
    (fetch_latest_conversions_efficiently (some (Val.vObj users)) limit).length =
      (flattenConversions users).length - (-limit).toNat := by
  show (pySlice (sortDescByTime (flattenConversions users)) limit).length = _
  unfold pySlice
  have hneg : ¬ 0 ≤ limit := not_le.mpr h
  simp only [hneg, if_false]
  simp only [List.length_take, sortDescByTime, List.length_insertionSort]
  omega

/-! ## Claim theorems -/

/-- Claim C4, counterexample to the claim as stated: flattening the player
entry with key `"k1"` whose document already carries `uid = "orig"` leaves
the document's value in place — the record's `uid` field is `"orig"`, not
the collection key `"k1"`, because the dict literal `{"uid": uid, **record}`
spreads the document AFTER the injected key, so the document's value wins,
not the injected identity field. -/
theorem c4_cx_document_value_survives :
    getVal
      ((fetch_latest_players
        (some (Val.vObj
          [("k1", Val.vObj [("uid", Val.vStr "orig"), ("Install_time", Val.vNum 5)])]))
        1).headD [])
      "uid" = some (Val.vStr "orig") ∧ "orig" ≠ "k1" := by
  constructor
  · rfl
  · decide

/-- Claim C4, amended: when a document already contains a field named like
the injected identity field, the identity value is the one overwritten —
the record keeps the document's original value (last-write-wins in favor of
the document), and the injected key is used only when the document lacks
the field. -/
theorem c4_identity_field_loses_collision (uid u c : String) (doc cdoc : Record) :
    getVal (mkPlayerRecord uid doc) "uid" =
      some ((lastVal doc "uid").getD (Val.vStr uid)) ∧
    getVal (mkConvRecord u c cdoc) "user_id" =
      some ((lastVal cdoc "user_id").getD (Val.vStr u)) ∧
    getVal (mkConvRecord u c cdoc) "conversion_id" =
      some ((lastVal cdoc "conversion_id").getD (Val.vStr c)) := by
  refine ⟨?_, ?_, ?_⟩
  · unfold mkPlayerRecord
    rw [getVal_dictLit, lastVal_cons]
    cases lastVal doc "uid" <;> simp
  · unfold mkConvRecord
    rw [getVal_dictLit, lastVal_cons, lastVal_cons]
    cases lastVal cdoc "user_id" <;> simp
  · unfold mkConvRecord
    rw [getVal_dictLit, lastVal_cons, lastVal_cons]
    cases lastVal cdoc "conversion_id" <;> simp

/-- Claim C5: flattening emits exactly one record per mapping-valued
(key, document) entry — so its length equals, and in particular is bounded
by, the number of mapping-valued entries — each mapping-valued entry's
record is present, and the same accounting holds for the nested
conversions traversal. -/
theorem c5_flatten_one_record_per_mapping (kvs users : List (String × Val)) :
    (flattenPlayers kvs).length = (kvs.filter fun kv => isObjB kv.2).length ∧
    (flattenPlayers kvs).length ≤ (kvs.filter fun kv => isObjB kv.2).length ∧
    (∀ k doc, (k, Val.vObj doc) ∈ kvs → mkPlayerRecord k doc ∈ flattenPlayers kvs) ∧
    (flattenConversions users).length =
      (users.map fun ukv =>
        match ukv.2 with
        | Val.vObj convs => (convs.filter fun ckv => isObjB ckv.2).length
        | _ => 0).sum := by
  refine ⟨flattenPlayers_length kvs, le_of_eq (flattenPlayers_length kvs), ?_,
    flattenConversions_length users⟩
  intro k doc hmem
  unfold flattenPlayers
  exact List.mem_filterMap.mpr ⟨(k, Val.vObj doc), hmem, rfl⟩

/-- Claim C5, witness: on a snapshot with one mapping-valued and one
scalar entry the flattener emits exactly the one record of the mapping
entry. -/
theorem c5_flatten_one_record_per_mapping_witness :
    mkPlayerRecord "a" [("x", Val.vNum 1)] ∈
      flattenPlayers [("a", Val.vObj [("x", Val.vNum 1)]), ("b", Val.vStr "junk")] :=
  (c5_flatten_one_record_per_mapping
      [("a", Val.vObj [("x", Val.vNum 1)]), ("b", Val.vStr "junk")] []).2.2.1
    "a" [("x", Val.vNum 1)] (List.mem_cons_self _ _)

/-- Claim C7: the two aggregation sums coerce each value, treat
non-coercible or absent values as 0, and never abort, so each equals the
sum of just the coercible values; concretely, a `"junk"` revenue string is
ignored while a numeric one is summed. -/
theorem c7_sum_equals_coercible_sum (kvs : List (String × Val)) :
    totalAdRevenue kvs = (kvs.filterMap revCoerce?).sum ∧
    totalImpressions kvs = (kvs.filterMap impCoerce?).sum ∧
    totalAdRevenue
      [("a", Val.vObj [("Ad_Revenue", Val.vStr "junk")]),
       ("b", Val.vObj [("Ad_Revenue", Val.vNum 5)])] = 5 := by
  refine ⟨?_, ?_, ?_⟩
  case refine_3 =>
    rw [totalAdRevenue_eq_sum]
    simp [revContrib, pyGet, getVal, pyFloat?, floatOfString?, splitSign, splitDot,
      natOfDigits?, digitVal?, List.find?]
  · rw [totalAdRevenue_eq_sum,
      List.map_congr_left fun kv _ => revContrib_eq_getD kv]
    exact sum_map_getD_eq_sum_filterMap revCoerce? kvs
  · rw [totalImpressions_eq_sum,
      List.map_congr_left fun kv _ => impContrib_eq_getD kv]
    exact sum_map_getD_eq_sum_filterMap_int impCoerce? kvs

/-- Claim C8: every core operation is total over the explicit read-result
domain, and on a failed read or a non-mapping node each returns its
documented "no data" value: 0, 0, (0, 0), [], []. -/
theorem c8_no_data_defaults (d : Option Val) (s : String) (c : Nat) (lim : ℤ)
    (h : isNoDataB d = true) :
    get_player_count d = 0 ∧
    get_players_by_source d s = 0 ∧
    get_ad_metrics d c = (0, 0) ∧
    fetch_latest_players d lim = [] ∧
    fetch_latest_conversions_efficiently d lim = [] := by
  have hplayers : fetch_latest_players d lim = [] := by
    unfold fetch_latest_players
    by_cases hl : lim < 0
    · simp [hl]
    · simp only [hl, if_false]
      cases d with
      | none => rfl
      | some v =>
        cases v with
        | vObj kvs => simp [isNoDataB] at h
        | vNull => rfl
        | vBool b => rfl
        | vNum q => rfl
        | vStr t => rfl
  cases d with
  | none => exact ⟨rfl, rfl, rfl, hplayers, rfl⟩
  | some v =>
    cases v with
    | vObj kvs => simp [isNoDataB] at h
    | vNull => exact ⟨rfl, rfl, rfl, hplayers, rfl⟩
    | vBool b => exact ⟨rfl, rfl, rfl, hplayers, rfl⟩
    | vNum q => exact ⟨rfl, rfl, rfl, hplayers, rfl⟩
    | vStr t => exact ⟨rfl, rfl, rfl, hplayers, rfl⟩

/-- Claim C8, witness: the defaults at a failed read (`none`), with source
name "organic", player count 10 and limit 10. -/
theorem c8_no_data_defaults_witness :
    get_player_count none = 0 ∧
    get_players_by_source none "organic" = 0 ∧
    get_ad_metrics none 10 = (0, 0) ∧
    fetch_latest_players none 10 = [] ∧
    fetch_latest_conversions_efficiently none 10 = [] :=
  c8_no_data_defaults none "organic" 10 10 (by decide)

/-- Claim C9: the three case-variant query results are merged into one
key-indexed dict before its size is taken, so the merged dict's keys are
pairwise distinct and a record matched by more than one query is counted
exactly once — concretely, a `Source = "organic"` record is matched by
both the exact and the lowercase query yet counted once. -/
theorem c9_merged_queries_dedup_by_key (kvs : List (String × Val)) (s : String) :
    (keysOf (mergedSourceQueries kvs s)).Nodup ∧
    get_players_by_source
      (some (Val.vObj [("p", Val.vObj [("Source", Val.vStr "organic")])]))
      "organic" = 1 :=
  ⟨keysOf_mergedSourceQueries_nodup kvs s, by decide⟩

theorem totalAdRevenue_sanitize (kvs : List (String × Val)) :
    totalAdRevenue (kvs.map fun kv =>
      (kv.1, if isObjB kv.2 then kv.2 else Val.vObj [])) = totalAdRevenue kvs := by
  rw [totalAdRevenue_eq_sum, totalAdRevenue_eq_sum, List.map_map]
  congr 1
  apply List.map_congr_left
  intro kv _
  obtain ⟨k, v⟩ := kv
  cases v <;> simp [revContrib, isObjB, pyGet, getVal, pyFloat?, Function.comp]

theorem totalImpressions_sanitize (kvs : List (String × Val)) :
    totalImpressions (kvs.map fun kv =>
      (kv.1, if isObjB kv.2 then kv.2 else Val.vObj [])) = totalImpressions kvs := by
  rw [totalImpressions_eq_sum, totalImpressions_eq_sum, List.map_map]
  congr 1
  apply List.map_congr_left
  intro kv _
  obtain ⟨k, v⟩ := kv
  cases v <;> simp [impContrib, isObjB, pyGet, getVal, pyInt?, ratTrunc, Function.comp]

/-- Claim C10: a non-mapping sample entry contributes nothing to either
sum but still counts in the sample-size denominator, so the estimate is
exactly what a well-formed record with both fields 0 would give — replacing
every malformed entry by an empty document changes nothing — and is lower
than what dropping the entry would give (500 vs 1000 in the concrete
sample). -/
theorem c10_malformed_counts_in_denominator (kvs : List (String × Val)) (c : Nat) :
    get_ad_metrics (some (Val.vObj kvs)) c =
      get_ad_metrics (some (Val.vObj (kvs.map fun kv =>
        (kv.1, if isObjB kv.2 then kv.2 else Val.vObj [])))) c ∧
    get_ad_metrics
      (some (Val.vObj
        [("a", Val.vObj [("Ad_Revenue", Val.vNum 100)]), ("b", Val.vStr "junk")]))
      10 = (500, 0) ∧
    get_ad_metrics (some (Val.vObj [("a", Val.vObj [("Ad_Revenue", Val.vNum 100)])]))
      10 = (1000, 0) := by
  refine ⟨?_, ?_, ?_⟩
  · cases kvs with
    | nil => rfl
    | cons a t =>
      simp only [get_ad_metrics]
      have hemp2 : ((a :: t).map fun kv =>
          (kv.1, if isObjB kv.2 then kv.2 else Val.vObj [])).isEmpty = false := by
        simp
      have hemp : (a :: t).isEmpty = false := by simp
      simp only [hemp, hemp2, Bool.false_eq_true, if_false]
      rw [List.length_map, totalAdRevenue_sanitize (a :: t),
        totalImpressions_sanitize (a :: t)]
  · simp [get_ad_metrics, totalAdRevenue, totalImpressions, pyGet, getVal,
      pyFloat?, pyInt?, ratTrunc, List.find?]
    norm_num
  · simp [get_ad_metrics, totalAdRevenue, totalImpressions, pyGet, getVal,
      pyFloat?, pyInt?, ratTrunc, List.find?]
    norm_num

/-- Claim C2: on a usable sample the estimator returns the per-record mean
of each field over the whole sample (each entry contributing its coerced
value, non-coercible and absent values counting 0) multiplied by the total
count, and it returns (0, 0) when the sample is empty or the total count
is 0. -/
theorem c2_estimator (kvs : List (String × Val)) (c : Nat) (s : Option Val)
    (hk : kvs ≠ []) (hc : c ≠ 0) :
    get_ad_metrics (some (Val.vObj kvs)) c =
      ((kvs.map revContrib).sum / (kvs.length : ℚ) * (c : ℚ),
       ((kvs.map impContrib).sum : ℚ) / (kvs.length : ℚ) * (c : ℚ)) ∧
    get_ad_metrics (some (Val.vObj [])) c = (0, 0) ∧
    get_ad_metrics s 0 = (0, 0) := by
  refine ⟨?_, rfl, ?_⟩
  · simp only [get_ad_metrics]
    have h1 : kvs.isEmpty = false := by
      cases kvs with
      | nil => exact absurd rfl hk
      | cons a t => rfl
    have h2 : ¬ (c = 0 ∨ kvs.length = 0) := by
      rintro (h | h)
      · exact hc h
      · exact hk (List.length_eq_zero.mp h)
    simp only [h1, Bool.false_eq_true, if_false, h2, if_false]
    rw [totalAdRevenue_eq_sum, totalImpressions_eq_sum]
  · cases s with
    | none => rfl
    | some v =>
      cases v with
      | vObj kvs2 =>
        simp only [get_ad_metrics]
        by_cases he : kvs2.isEmpty <;> simp [he]
      | vNull => rfl
      | vBool b => rfl
      | vNum q => rfl
      | vStr t => rfl

/-- Claim C2, witness: the spec's own vector — sample entries with
`Ad_Revenue` 100 and 300 and a total count of 10 yield the estimate 2000
(and 0 estimated impressions). -/
theorem c2_estimator_witness :
    get_ad_metrics
      (some (Val.vObj
        [("a", Val.vObj [("Ad_Revenue", Val.vNum 100)]),
         ("b", Val.vObj [("Ad_Revenue", Val.vNum 300)])]))
      10 = ((2000 : ℚ), (0 : ℚ)) := by
  have h := (c2_estimator
    [("a", Val.vObj [("Ad_Revenue", Val.vNum 100)]),
     ("b", Val.vObj [("Ad_Revenue", Val.vNum 300)])]
    10 none (List.cons_ne_nil _ _) (by decide)).1
  rw [h]
  simp [revContrib, impContrib, pyGet, getVal, pyFloat?, pyInt?, ratTrunc,
    List.find?]
  norm_num

/-- Claim C3, counterexample to the claim as stated: with expected value
"organic" the three issued queries match only the exact, all-lowercase and
all-uppercase spellings, so a record whose `Source` is the mixed-case
`"Organic"` is NOT matched (count 0) while `"organic"` is (count 1) — the
claimed case-insensitive match of `"Organic"` fails. -/
theorem c3_cx_mixed_case_not_matched :
    get_players_by_source
      (some (Val.vObj [("p1", Val.vObj [("Source", Val.vStr "Organic")])]))
      "organic" = 0 ∧
    get_players_by_source
      (some (Val.vObj [("p1", Val.vObj [("Source", Val.vStr "organic")])]))
      "organic" = 1 := by
  decide

/-- Claim C3, amended: the partition is an exact match against the three
case variants actually queried — the requested name, its full lowercasing
and its full uppercasing — and `get_players_by_source` counts exactly the
records whose `Source` equals one of those three spellings (each record
once). Mixed-case spellings other than these are not matched. -/
theorem c3_source_count_three_variants (kvs : List (String × Val)) (s : String)
    (hk : (keysOf kvs).Nodup) :
    get_players_by_source (some (Val.vObj kvs)) s =
      (kvs.filter fun kv => matchesAnyCase kv s).length := by
  show (mergedSourceQueries kvs s).length = _
  exact length_mergedSourceQueries kvs s hk

/-- Claim C3, witness: over a snapshot holding an all-uppercase and a
mixed-case record the count equals the number of entries matching one of
the three queried variants (here 1: only `"ORGANIC"`). -/
theorem c3_source_count_three_variants_witness :
    get_players_by_source
      (some (Val.vObj
        [("p1", Val.vObj [("Source", Val.vStr "ORGANIC")]),
         ("p2", Val.vObj [("Source", Val.vStr "Organic")])]))
      "organic" =
      ([("p1", Val.vObj [("Source", Val.vStr "ORGANIC")]),
        ("p2", Val.vObj [("Source", Val.vStr "Organic")])].filter
          fun kv => matchesAnyCase kv "organic").length :=
  c3_source_count_three_variants
    [("p1", Val.vObj [("Source", Val.vStr "ORGANIC")]),
     ("p2", Val.vObj [("Source", Val.vStr "Organic")])]
    "organic" (by decide)

/-- Claim C1, counterexample to the claim as stated: over a two-player
snapshot with `Install_time` 1 and 2 and limit 2, the indexed strategy
returns the flattened records in the server's ascending index order (sort
keys [1, 2]), which is not non-increasing — `fetch_latest_players` does
not return a time-descending sequence (the surrounding UI re-sorts it at
line 322). -/
theorem c1_cx_indexed_strategy_ascending :
    ¬ List.Pairwise (fun a b => recInstallKey b ≤ recInstallKey a)
      (fetch_latest_players
        (some (Val.vObj
          [("a", Val.vObj [("Install_time", Val.vNum 1)]),
           ("b", Val.vObj [("Install_time", Val.vNum 2)])]))
        2) := by
  decide

/-- Claim C1, amended: for every limit N ≥ 0 both strategies return at
most N records, but only the scan strategy's sort-key values are
non-increasing (time-descending); the indexed strategy's are non-decreasing
(time-ascending), the order in which the client materializes the server's
ascending index. -/
theorem c1_latestN_length_and_order (kvs users : List (String × Val)) (limit : ℤ)
    (hwf : kvs.all (fun kv => docKeysNodupB kv.2) = true)
    (hnum : (flattenConversions users).all timeNumOk = true)
    (h0 : 0 ≤ limit) :
    (fetch_latest_players (some (Val.vObj kvs)) limit).length ≤ limit.toNat ∧
    List.Pairwise (fun a b => recInstallKey a ≤ recInstallKey b)
      (fetch_latest_players (some (Val.vObj kvs)) limit) ∧
    (fetch_latest_conversions_efficiently (some (Val.vObj users)) limit).length ≤
      limit.toNat ∧
    List.Pairwise (fun a b => timeKey b ≤ timeKey a)
      (fetch_latest_conversions_efficiently (some (Val.vObj users)) limit) :=
  ⟨fetch_latest_players_length kvs limit,
   fetch_latest_players_pairwise kvs limit hwf,
   fetch_latest_conversions_length users limit h0,
   fetch_latest_conversions_pairwise users limit⟩

/-- Claim C1, witness: both strategies at limit 2 over small concrete
snapshots (players with `Install_time` 3 and 7 plus a scalar entry;
one user with two timestamped conversions). -/
theorem c1_latestN_length_and_order_witness :
    (fetch_latest_players
      (some (Val.vObj
        [("a", Val.vObj [("Install_time", Val.vNum 3)]),
         ("b", Val.vObj [("Install_time", Val.vNum 7)]),
         ("c", Val.vStr "late")]))
      2).length ≤ (2 : ℤ).toNat ∧
    List.Pairwise (fun a b => recInstallKey a ≤ recInstallKey b)
      (fetch_latest_players
        (some (Val.vObj
          [("a", Val.vObj [("Install_time", Val.vNum 3)]),
           ("b", Val.vObj [("Install_time", Val.vNum 7)]),
           ("c", Val.vStr "late")]))
        2) ∧
    (fetch_latest_conversions_efficiently
      (some (Val.vObj
        [("u1", Val.vObj
          [("c1", Val.vObj [("time", Val.vNum 5)]),
           ("c2", Val.vObj [("time", Val.vNum 7)])])]))
      2).length ≤ (2 : ℤ).toNat ∧
    List.Pairwise (fun a b => timeKey b ≤ timeKey a)
      (fetch_latest_conversions_efficiently
        (some (Val.vObj
          [("u1", Val.vObj
            [("c1", Val.vObj [("time", Val.vNum 5)]),
             ("c2", Val.vObj [("time", Val.vNum 7)])])]))
        2) :=
  c1_latestN_length_and_order
    [("a", Val.vObj [("Install_time", Val.vNum 3)]),
     ("b", Val.vObj [("Install_time", Val.vNum 7)]),
     ("c", Val.vStr "late")]
    [("u1", Val.vObj
      [("c1", Val.vObj [("time", Val.vNum 5)]),
       ("c2", Val.vObj [("time", Val.vNum 7)])])]
    2 (by decide) (by decide) (by decide)

/-- Claim C6, counterexample to the claim as stated: the cap is the Python
slice `sorted_conversions[:limit]`, so the negative limit -1 does not give
an empty sequence — over a snapshot with two conversions it returns all
but the last record, a sequence of length 1. -/
theorem c6_cx_negative_limit_not_empty :
    (fetch_latest_conversions_efficiently
      (some (Val.vObj
        [("u1", Val.vObj
          [("c1", Val.vObj [("time", Val.vNum 5)]),
           ("c2", Val.vObj [("time", Val.vNum 7)])])]))
      (-1)).length = 1 := by
  decide

/-- Claim C6, amended: the scan strategy stably sorts the flattened
records descending by the sort key (equal keys keep their original
relative order: filtering any fixed key value commutes with the sort),
records missing the `time` field sort with key 0, and the cap is the
Python slice `[:N]`: the first N records for N ≥ 0 — in particular N = 0
gives the empty sequence — while a negative N keeps all but the last |N|
records rather than giving an empty sequence. -/
theorem c6_scan_sort_stable_capped (users : List (String × Val)) (limit : ℤ)
    (q : ℚ) (hnum : (flattenConversions users).all timeNumOk = true) :
    List.Pairwise (fun a b => timeKey b ≤ timeKey a)
      (fetch_latest_conversions_efficiently (some (Val.vObj users)) limit) ∧
    (sortDescByTime (flattenConversions users)).filter (fun r => timeKey r == q) =
      (flattenConversions users).filter (fun r => timeKey r == q) ∧
    (∀ r : Record, getVal r "time" = none → timeKey r = 0) ∧
    fetch_latest_conversions_efficiently (some (Val.vObj users)) 0 = [] ∧
    (0 ≤ limit →
      (fetch_latest_conversions_efficiently (some (Val.vObj users)) limit).length ≤
        limit.toNat) ∧
    (limit < 0 →
      (fetch_latest_conversions_efficiently (some (Val.vObj users)) limit).length =
        (flattenConversions users).length - (-limit).toNat) := by
  refine ⟨fetch_latest_conversions_pairwise users limit, ?_, ?_, ?_,
    fetch_latest_conversions_length users limit,
    fetch_latest_conversions_neg_length users limit⟩
  · unfold sortDescByTime
    exact filter_insertionSort_desc timeKey q _
  · intro r h
    unfold timeKey
    rw [h]
  · show pySlice (sortDescByTime (flattenConversions users)) 0 = []
    unfold pySlice
    simp

/-- Claim C6, witness: the amended behavior on one user with two
timestamped conversions — descending at limit 3, empty at limit 0, and
bounded length. -/
theorem c6_scan_sort_stable_capped_witness :
    List.Pairwise (fun a b => timeKey b ≤ timeKey a)
      (fetch_latest_conversions_efficiently
        (some (Val.vObj
          [("u1", Val.vObj
            [("c1", Val.vObj [("time", Val.vNum 5)]),
             ("c2", Val.vObj [("goal", Val.vStr "g")])])]))
        3) ∧
    fetch_latest_conversions_efficiently
      (some (Val.vObj
        [("u1", Val.vObj
          [("c1", Val.vObj [("time", Val.vNum 5)]),
           ("c2", Val.vObj [("goal", Val.vStr "g")])])]))
      0 = [] ∧
    (fetch_latest_conversions_efficiently
      (some (Val.vObj
        [("u1", Val.vObj
          [("c1", Val.vObj [("time", Val.vNum 5)]),
           ("c2", Val.vObj [("goal", Val.vStr "g")])])]))
      3).length ≤ (3 : ℤ).toNat := by
  have h3 := c6_scan_sort_stable_capped
    [("u1", Val.vObj
      [("c1", Val.vObj [("time", Val.vNum 5)]),
       ("c2", Val.vObj [("goal", Val.vStr "g")])])]
    3 5 (by decide)
  exact ⟨h3.1, (c6_scan_sort_stable_capped
    [("u1", Val.vObj
      [("c1", Val.vObj [("time", Val.vNum 5)]),
       ("c2", Val.vObj [("goal", Val.vStr "g")])])]
    0 5 (by decide)).2.2.2.1, h3.2.2.2.2.1 (by decide)⟩

end FirebaseDashboard
